import Mathlib

/-!
Verification of the reconciliation-and-retry core of an appliance-onboarding
library against its specification.

The embedding covers:
* `lib/bigIq5_2LicenseProvider.js` — the pooled-license workflow
  `getUnmanagedDeviceLicense`: pool-name resolution, the first-fit offering
  scan `findValidLicense`, and the final wait-to-be-licensed step.
* The onboarding operations exercised by `test/lib/bigIpOnboardTests.js`
  (hostname rename, apply-if-different reconciliation, user create-vs-update),
  whose implementation module is not part of the sources here; those are
  modelled from the specification, as marked on each definition.

Remote-call results and promise outcomes are made explicit: a `list` call can
reject, resolve with a non-array value, or resolve with an array; a promise
outcome is a resolution with a value or a rejection carrying an optional
error message (a bare `deferred.reject()` carries none).
-/

set_option autoImplicit false

namespace F5Onboard

/-- Outcome of a remote `list` call as the JS code distinguishes it:
the promise rejects (`.catch` path), resolves with a non-array value
(`Array.isArray(response)` is false), or resolves with an array. -/
inductive ListResult (α : Type) where
  | err : ListResult α
  | nonArray : ListResult α
  | arr (xs : List α) : ListResult α
deriving DecidableEq

/-- Outcome of a promise: resolved with a value, or rejected with an optional
reason (`rejected none` models a bare `deferred.reject()` with no argument). -/
inductive PromiseOutcome (ε α : Type) where
  | resolved (value : α) : PromiseOutcome ε α
  | rejected (reason : Option ε) : PromiseOutcome ε α
deriving DecidableEq

/-- The `licenseState` sub-document of a license offering:
`{registrationKey, licenseStartDateTime, licenseEndDateTime}`.
Timestamps are modelled as integers compared with the JS `<`. -/
structure LicenseState where
  registrationKey : String
  licenseStartDateTime : Int
  licenseEndDateTime : Int
deriving DecidableEq

/-- One entry of the `/offerings` listing, as `findValidLicense` reads it. -/
structure License where
  licenseState : LicenseState
deriving DecidableEq

/-- The time-window test of `findValidLicense`:
`license.licenseState.licenseStartDateTime < now && now < license.licenseState.licenseEndDateTime`
(both comparisons strict). -/
def timeValid (now : Int) (l : License) : Prop :=
  l.licenseState.licenseStartDateTime < now ∧ now < l.licenseState.licenseEndDateTime

instance (now : Int) (l : License) : Decidable (timeValid now l) :=
  inferInstanceAs (Decidable (_ ∧ _))

/-- The recursive offering scan `findValidLicense` of
`bigIq5_2LicenseProvider.js` (lines 99–131), with the per-offering membership
`list` call abstracted as `members` (keyed by registration key):

* past the end of the list (`index > licenses.length - 1`): bare
  `deferred.reject()` — a rejection with no reason;
* time window fails: recurse on rest;
* time window passes: fetch members; resolve the registration key iff the
  response is an array of length zero; on any other resolution, or on a
  rejection of the members call (`.catch`), recurse on rest. -/
def findValidLicense (now : Int) (members : String → ListResult Unit) :
    List License → PromiseOutcome String String
  | [] => .rejected none
  | l :: rest =>
    if timeValid now l then
      match members l.licenseState.registrationKey with
      | .arr [] => .resolved l.licenseState.registrationKey
      | _ => findValidLicense now members rest
    else
      findValidLicense now members rest

/-- An offering passes both checks of the scan: its validity window contains
`now` strictly, and the membership list for its registration key resolves to
an empty array. -/
def eligible (now : Int) (members : String → ListResult Unit) (l : License) : Prop :=
  timeValid now l ∧ members l.licenseState.registrationKey = .arr []

instance (now : Int) (members : String → ListResult Unit) (l : License) :
    Decidable (eligible now members l) :=
  inferInstanceAs (Decidable (_ ∧ _))

/-- One entry of the license-pool listing as the first `.then` callback of
`getUnmanagedDeviceLicense` reads it: a `name` and an `id` field, the latter
possibly absent (`undefined`). -/
structure Pool where
  name : String
  id : Option String
deriving DecidableEq

/-- The pool-scan loop of `getUnmanagedDeviceLicense` (lines 73–78): walk the
listing in order, and on the first entry whose `name` equals `poolName`, take
its `id` field and `break`. `none` means `poolUuid` was never assigned, or the
matching entry's `id` was absent. -/
def firstPoolId (poolName : String) : List Pool → Option String
  | [] => none
  | p :: rest => if p.name = poolName then p.id else firstPoolId poolName rest

/-- JS truthiness of the `poolUuid` variable at `if (poolUuid)`:
falsy when `undefined` or the empty string. -/
def jsTruthy : Option String → Bool
  | none => false
  | some s => !(s == "")

/-- What the first `.then` callback of `getUnmanagedDeviceLicense` does next
after the pool listing resolves. -/
inductive PoolStepAction where
  /-- Proceed: `bigIqControl.list(LICENSE_PATH + poolUuid + '/offerings')`. -/
  | listOfferings (poolUuid : String) : PoolStepAction
  /-- `q.reject(new Error(message))`. -/
  | reject (message : String) : PoolStepAction
deriving DecidableEq

/-- The pool-resolution step of `getUnmanagedDeviceLicense` (lines 67–92):
on an array response, find the first name match; if the resulting `poolUuid`
is truthy, list the pool's offerings, otherwise reject with
`'No license pool found with name: ' + poolName`; on a non-array response
reject with `'Error getting license pools: ' + response` (the stringified
response is abstracted here). -/
def poolLookupStep (poolName : String) (response : Option (List Pool)) : PoolStepAction :=
  match response with
  | some pools =>
    match firstPoolId poolName pools with
    | some uuid =>
      if jsTruthy (some uuid) then .listOfferings uuid
      else .reject ("No license pool found with name: " ++ poolName)
    | none => .reject ("No license pool found with name: " ++ poolName)
  | none => .reject ("Error getting license pools: " ++ "[response]")

/-- `pat` occurs as a substring of `s`. -/
def strContains (s pat : String) : Prop :=
  ∃ pre post, s = pre ++ pat ++ post

/-- The license-assignment document read by the final `.then` callback:
`{state, uuid}`. -/
structure Assignment where
  state : String
  uuid : String
deriving DecidableEq

/-- The retry-options object passed to `util.tryUntil`. -/
structure RetryOptions where
  maxRetries : Nat
  retryIntervalMs : Nat
deriving DecidableEq

/-- The retry options the final `.then` callback of
`getUnmanagedDeviceLicense` (lines 160–178) hands to `util.tryUntil`:
`none` when no `tryUntil` call is made (falsy response, or state already
`'LICENSED'`), otherwise the literal `{maxRetries: 40, retryIntervalMs: 5000}`. -/
def licenseWaitRetryOptions (response : Option Assignment) : Option RetryOptions :=
  match response with
  | none => none
  | some a =>
    if a.state = "LICENSED" then none
    else some ⟨40, 5000⟩

/-- The value the final `.then` callback returns, which becomes the outcome of
the promise `getUnmanagedDeviceLicense` hands to its caller. -/
inductive FinalStepReturn where
  /-- The callback falls off the end: the outer promise fulfills with
  `undefined`. -/
  | resolvedUndefined : FinalStepReturn
  /-- `return q()`: the outer promise fulfills. -/
  | resolvedUnit : FinalStepReturn
deriving DecidableEq

/-- The return value of the final `.then` callback of
`getUnmanagedDeviceLicense` (lines 160–180), translated faithfully from the
source: when the response is falsy the callback returns `undefined`; when
`state === 'LICENSED'` it returns `q()`; otherwise it builds the
`util.tryUntil(this, {maxRetries: 40, retryIntervalMs: 5000}, isLicensed)`
chain but does NOT return it, so the callback again returns `undefined` —
regardless of whether the detached polling chain ever succeeds, which is why
the `pollEverLicensed` parameter is unused. -/
def finalStepReturn (response : Option Assignment) (pollEverLicensed : Bool) :
    FinalStepReturn :=
  match response, pollEverLicensed with
  | none, _ => .resolvedUndefined
  | some a, _ =>
    if a.state = "LICENSED" then .resolvedUnit
    else .resolvedUndefined

/-- The four REST operations of the injected control-plane client. -/
inductive Method where
  | list : Method
  | create : Method
  | modify : Method
  | delete : Method
deriving DecidableEq

/-- One mutating remote call: method, path and a flat field mapping as body. -/
structure Call where
  method : Method
  path : String
  body : List (String × String)
deriving DecidableEq

/-- Result of a reconciliation operation. -/
inductive ReconcileResult where
  /-- No mutation needed; carries a human-readable message. -/
  | noOp (message : String) : ReconcileResult
  /-- A mutation was issued. -/
  | applied : ReconcileResult
deriving DecidableEq

/-- Modelled from the spec: the hostname operation of the onboarding module
(`bigIp.onboard.hostname`), whose implementation file is not among the
sources here (only its tests are). Per the spec's StateReconciler
identity-field variant and rename-idempotence property: given the current
device name (from the `list` on `/tm/cm/device`) and the desired hostname,
when they match, return a no-op whose message notes they match and issue no
mutating call; when they differ, issue the `mv`-style rename `create` on the
device resource and then the global-settings `modify` carrying the new
hostname, in that order. -/
def hostnameOp (currentHostname desiredHostname : String) :
    ReconcileResult × List Call :=
  if desiredHostname = currentHostname then
    (.noOp "Hostname matches existing hostname", [])
  else
    (.applied,
      [ ⟨.create, "/tm/cm/device",
          [("command", "mv"), ("name", currentHostname), ("target", desiredHostname)]⟩,
        ⟨.modify, "/tm/sys/global-settings",
          [("hostname", desiredHostname)]⟩ ])

/-- Modelled from the spec: the diff step of `applyIfDifferent` — the subset
of the desired fields whose value differs from, or is absent in, the fetched
current state (the current state is the fetched document as a partial field
mapping). -/
def diffFields (desired : List (String × String)) (current : String → Option String) :
    List (String × String) :=
  desired.filter (fun kv => !(current kv.1 == some kv.2))

/-- Outcome of `applyIfDifferent`: no mutation, or a single `modify` whose
body is the given field mapping. -/
inductive ApplyResult where
  | noOp : ApplyResult
  | patch (body : List (String × String)) : ApplyResult
deriving DecidableEq

/-- Modelled from the spec: `applyIfDifferent` of the StateReconciler, whose
implementation file is not among the sources here (only its tests are). It
fetches the current state, computes the differing subset of the desired
fields, returns `NoOp` when that subset is empty, and otherwise issues a
single `modify` carrying exactly the differing fields. -/
def applyIfDifferent (desired : List (String × String)) (current : String → Option String) :
    ApplyResult :=
  let d := diffFields desired current
  if d.isEmpty then .noOp else .patch d

/-- Body of a user create/modify call; a `none` field is absent from the
issued body. The role sits under `partition-access.all-partitions.role`. -/
structure UserBody where
  name : Option String
  password : Option String
  partitionAccessRole : Option String
  shell : Option String
deriving DecidableEq

/-- A user create/modify call. -/
structure UserCall where
  method : Method
  path : String
  body : UserBody
deriving DecidableEq

/-- Modelled from the spec: `updateUser` of the onboarding module, whose
implementation file is not among the sources here (only its tests are).
Against the existing-user listing: when the user name is present, issue a
`modify` on `/tm/auth/user/{name}` whose body carries no name and no
partition-access field; when absent and a role is supplied, issue a `create`
on `/tm/auth/user` carrying the role under partition-access; when absent and
no role is supplied, fail with a configuration error and issue no mutation. -/
def updateUser (existingUsers : List String) (user password : String)
    (role : Option String) (shell : Option String) : Except String UserCall :=
  if user ∈ existingUsers then
    .ok ⟨.modify, "/tm/auth/user/" ++ user, ⟨none, some password, none, shell⟩⟩
  else
    match role with
    | some r => .ok ⟨.create, "/tm/auth/user", ⟨some user, some password, some r, shell⟩⟩
    | none => .error ("Must specify a role when creating user " ++ user)

/-- Characterization of the scan's success: it resolves `k` iff the offering
list splits as `pre ++ l :: post` where every offering in `pre` fails a check,
`l` passes both, and `k` is `l`'s registration key. -/
theorem findValidLicense_resolved_iff (now : Int) (members : String → ListResult Unit)
    (ls : List License) (k : String) :
    findValidLicense now members ls = .resolved k ↔
      ∃ pre l post, ls = pre ++ l :: post ∧
        (∀ p ∈ pre, ¬ eligible now members p) ∧
        eligible now members l ∧
        k = l.licenseState.registrationKey := by
  induction ls with
  | nil =>
    simp [findValidLicense]
  | cons hd rest ih =>
    constructor
    · intro h
      by_cases htv : timeValid now hd
      · rcases hm : members hd.licenseState.registrationKey with _ | _ | xs
        · rw [findValidLicense, if_pos htv, hm] at h
          rcases ih.mp h with ⟨pre, l, post, hsplit, hpre, hel, hk⟩
          exact ⟨hd :: pre, l, post, by rw [hsplit]; rfl,
            by
              intro p hp
              rcases List.mem_cons.mp hp with hphd | hptail
              · subst hphd; intro he; exact absurd he.2 (by rw [hm]; simp)
              · exact hpre p hptail,
            hel, hk⟩
        · rw [findValidLicense, if_pos htv, hm] at h
          rcases ih.mp h with ⟨pre, l, post, hsplit, hpre, hel, hk⟩
          exact ⟨hd :: pre, l, post, by rw [hsplit]; rfl,
            by
              intro p hp
              rcases List.mem_cons.mp hp with hphd | hptail
              · subst hphd; intro he; exact absurd he.2 (by rw [hm]; simp)
              · exact hpre p hptail,
            hel, hk⟩
        · cases xs with
          | nil =>
            rw [findValidLicense, if_pos htv, hm] at h
            have hk : k = hd.licenseState.registrationKey := by
              cases h; rfl
            exact ⟨[], hd, rest, rfl, by simp, ⟨htv, hm⟩, hk⟩
          | cons x xs' =>
            rw [findValidLicense, if_pos htv, hm] at h
            rcases ih.mp h with ⟨pre, l, post, hsplit, hpre, hel, hk⟩
            exact ⟨hd :: pre, l, post, by rw [hsplit]; rfl,
              by
                intro p hp
                rcases List.mem_cons.mp hp with hphd | hptail
                · subst hphd; intro he
                  exact absurd he.2 (by rw [hm]; simp)
                · exact hpre p hptail,
              hel, hk⟩
      · rw [findValidLicense, if_neg htv] at h
        rcases ih.mp h with ⟨pre, l, post, hsplit, hpre, hel, hk⟩
        exact ⟨hd :: pre, l, post, by rw [hsplit]; rfl,
          by
            intro p hp
            rcases List.mem_cons.mp hp with hphd | hptail
            · subst hphd; intro he; exact absurd he.1 htv
            · exact hpre p hptail,
          hel, hk⟩
    · rintro ⟨pre, l, post, hsplit, hpre, hel, hk⟩
      cases pre with
      | nil =>
        simp only [List.nil_append] at hsplit
        cases hsplit
        rw [findValidLicense, if_pos hel.1, hel.2]
        rw [hk]
      | cons p pre' =>
        have hcons : hd = p ∧ rest = pre' ++ l :: post := by
          constructor
          · exact (List.cons.injEq _ _ _ _ ▸ hsplit).1
          · exact (List.cons.injEq _ _ _ _ ▸ hsplit).2
        have hhd_not : ¬ eligible now members hd := by
          rw [hcons.1]
          exact hpre p (List.mem_cons_self p pre')
        have htail : findValidLicense now members rest = .resolved k := by
          apply ih.mpr
          exact ⟨pre', l, post, hcons.2,
            fun q hq => hpre q (List.mem_cons_of_mem p hq), hel, hk⟩
        by_cases htv : timeValid now hd
        · rcases hm : members hd.licenseState.registrationKey with _ | _ | xs
          · rw [findValidLicense, if_pos htv, hm]; exact htail
          · rw [findValidLicense, if_pos htv, hm]; exact htail
          · cases xs with
            | nil => exact absurd ⟨htv, hm⟩ hhd_not
            | cons x xs' =>
              rw [findValidLicense, if_pos htv, hm]; exact htail
        · rw [findValidLicense, if_neg htv]; exact htail

/-- Helper: when no entry of the pool listing has the requested name, the
pool-scan loop never assigns `poolUuid`. -/
theorem firstPoolId_none_of_no_match (poolName : String) :
    ∀ pools : List Pool, (∀ p ∈ pools, p.name ≠ poolName) →
      firstPoolId poolName pools = none := by
  intro pools
  induction pools with
  | nil => intro _; rfl
  | cons p rest ih =>
    intro h
    rw [firstPoolId, if_neg (h p (List.mem_cons_self p rest))]
    exact ih (fun p' hp' => h p' (List.mem_cons_of_mem p hp'))

/-- C1: the offering scan of `getUnmanagedDeviceLicense` resolves a
registration key `k` only if some offering in the scanned sequence carries
that key, its `licenseStartDateTime` is strictly before `now`, `now` is
strictly before its `licenseEndDateTime`, and the membership list fetched for
that key is an empty sequence. -/
theorem C1_scan_selects_only_eligible (now : Int) (members : String → ListResult Unit)
    (ls : List License) (k : String)
    (h : findValidLicense now members ls = .resolved k) :
    ∃ l ∈ ls, k = l.licenseState.registrationKey ∧
      l.licenseState.licenseStartDateTime < now ∧
      now < l.licenseState.licenseEndDateTime ∧
      members k = .arr [] := by
  rcases (findValidLicense_resolved_iff now members ls k).mp h with
    ⟨pre, l, post, hsplit, _, hel, hk⟩
  refine ⟨l, ?_, hk, hel.1.1, hel.1.2, ?_⟩
  · rw [hsplit]
    exact List.mem_append_right pre (List.mem_cons_self l post)
  · rw [hk]
    exact hel.2

/-- Witness for C1 at a concrete input. -/
theorem C1_scan_selects_only_eligible_witness :
    ∃ l ∈ [License.mk ⟨"KEY-1", 0, 10⟩], "KEY-1" = l.licenseState.registrationKey ∧
      l.licenseState.licenseStartDateTime < 5 ∧
      (5 : Int) < l.licenseState.licenseEndDateTime ∧
      (fun _ : String => ListResult.arr ([] : List Unit)) "KEY-1" = .arr [] :=
  C1_scan_selects_only_eligible 5 (fun _ => .arr []) [License.mk ⟨"KEY-1", 0, 10⟩]
    "KEY-1" (by decide)

/-- C2: the offering scan resolves `k` exactly when the offering sequence, in
the order the inventory returned it, splits as `pre ++ l :: post` where every
offering in `pre` fails the time-window check or the empty-membership check,
`l` passes both, and `k` is `l`'s registration key — first-fit over the given
order; and as an equation between a function of the inventory, the membership
responses and the clock, the scan is deterministic. -/
theorem C2_scan_first_fit (now : Int) (members : String → ListResult Unit)
    (ls : List License) (k : String) :
    findValidLicense now members ls = .resolved k ↔
      ∃ pre l post, ls = pre ++ l :: post ∧
        (∀ p ∈ pre, ¬ eligible now members p) ∧
        eligible now members l ∧
        k = l.licenseState.registrationKey :=
  findValidLicense_resolved_iff now members ls k

/-- C3 (code bug): when the assignment's state is not `LICENSED`, the final
`.then` callback of `getUnmanagedDeviceLicense` builds the `util.tryUntil`
polling chain but does not return it, so the promise handed to the caller
fulfills with `undefined` — whether or not the polls ever report `LICENSED`
(in particular when the 40-retry budget is exhausted), and the detached
chain's `Giving up on licensing via BIG-IQ.` rejection is swallowed. -/
theorem C3_nonlicensed_branch_resolves_undefined :
    finalStepReturn (some ⟨"GRANTED", "uuid-1"⟩) false = .resolvedUndefined ∧
    finalStepReturn (some ⟨"GRANTED", "uuid-1"⟩) true = .resolvedUndefined :=
  ⟨rfl, rfl⟩

/-- C4 counterexample: on a concrete inventory where no offering qualifies
(the single offering's window `[0,1]` does not contain `now = 5`), the scan
does not reject with an error carrying a descriptive message: it rejects with
no error value at all (bare `deferred.reject()`). -/
theorem C4_counterexample_bare_reject :
    findValidLicense 5 (fun _ => ListResult.arr ([] : List Unit))
      [License.mk ⟨"KEY-1", 0, 1⟩] = .rejected none := by
  decide

/-- C4 (amended): when no offering passes both the time-window check and the
empty-membership check, the offering scan rejects, but the rejection carries
no error value (and hence no descriptive message). -/
theorem C4_no_qualifier_rejects_without_error (now : Int)
    (members : String → ListResult Unit) (ls : List License)
    (h : ∀ l ∈ ls, ¬ eligible now members l) :
    findValidLicense now members ls = .rejected none := by
  induction ls with
  | nil => rfl
  | cons l rest ih =>
    have hl := h l (List.mem_cons_self l rest)
    have hrest := ih (fun p hp => h p (List.mem_cons_of_mem l hp))
    by_cases htv : timeValid now l
    · rcases hm : members l.licenseState.registrationKey with _ | _ | xs
      · rw [findValidLicense, if_pos htv, hm]
        exact hrest
      · rw [findValidLicense, if_pos htv, hm]
        exact hrest
      · cases xs with
        | nil => exact absurd ⟨htv, hm⟩ hl
        | cons x xs' =>
          rw [findValidLicense, if_pos htv, hm]
          exact hrest
    · rw [findValidLicense, if_neg htv]
      exact hrest

/-- Witness for the amended C4 at a concrete input. -/
theorem C4_no_qualifier_rejects_without_error_witness :
    findValidLicense 5 (fun _ => ListResult.arr ([] : List Unit))
      [License.mk ⟨"KEY-1", 0, 1⟩, License.mk ⟨"KEY-2", 7, 9⟩] = .rejected none :=
  C4_no_qualifier_rejects_without_error 5 (fun _ => .arr [])
    [License.mk ⟨"KEY-1", 0, 1⟩, License.mk ⟨"KEY-2", 7, 9⟩] (by decide)

/-- C5: when the pool listing is an array with no entry named `poolName`, the
pool-resolution step of `getUnmanagedDeviceLicense` rejects — it does not go
on to list any offerings — with an error message that names the requested
pool name. -/
theorem C5_pool_not_found_rejects (poolName : String) (pools : List Pool)
    (h : ∀ p ∈ pools, p.name ≠ poolName) :
    ∃ msg, poolLookupStep poolName (some pools) = .reject msg ∧
      strContains msg poolName := by
  refine ⟨"No license pool found with name: " ++ poolName, ?_, ?_⟩
  · have hnone := firstPoolId_none_of_no_match poolName pools h
    simp [poolLookupStep, hnone]
  · exact ⟨"No license pool found with name: ", "", by simp⟩

/-- Witness for C5 at a concrete input. -/
theorem C5_pool_not_found_rejects_witness :
    ∃ msg, poolLookupStep "myPool" (some [Pool.mk "otherPool" (some "uuid-1")]) =
        .reject msg ∧ strContains msg "myPool" :=
  C5_pool_not_found_rejects "myPool" [Pool.mk "otherPool" (some "uuid-1")] (by decide)

/-- C6: reconciling a hostname equal to the current device name returns a
no-op whose message contains `matches` and issues no mutating call; a
differing hostname issues the `mv`-style rename `create` on the device
resource and then the global-settings `modify` carrying the new hostname, in
that order. -/
theorem C6_hostname_noop_or_rename (currentHostname desiredHostname : String) :
    (desiredHostname = currentHostname →
      ∃ msg, hostnameOp currentHostname desiredHostname = (.noOp msg, []) ∧
        strContains msg "matches") ∧
    (desiredHostname ≠ currentHostname →
      hostnameOp currentHostname desiredHostname =
        (.applied,
          [ ⟨.create, "/tm/cm/device",
              [("command", "mv"), ("name", currentHostname), ("target", desiredHostname)]⟩,
            ⟨.modify, "/tm/sys/global-settings",
              [("hostname", desiredHostname)]⟩ ])) := by
  constructor
  · intro h
    refine ⟨"Hostname matches existing hostname", ?_, "Hostname ", " existing hostname", rfl⟩
    unfold hostnameOp
    rw [if_pos h]
  · intro h
    unfold hostnameOp
    rw [if_neg h]

/-- Witness for C6, covering both branches at concrete inputs. -/
theorem C6_hostname_noop_or_rename_witness :
    (∃ msg, hostnameOp "host1" "host1" = (.noOp msg, []) ∧ strContains msg "matches") ∧
    hostnameOp "host1" "host2" =
      (.applied,
        [ ⟨.create, "/tm/cm/device",
            [("command", "mv"), ("name", "host1"), ("target", "host2")]⟩,
          ⟨.modify, "/tm/sys/global-settings", [("hostname", "host2")]⟩ ]) :=
  ⟨(C6_hostname_noop_or_rename "host1" "host1").1 rfl,
   (C6_hostname_noop_or_rename "host1" "host2").2 (by decide)⟩

/-- C7: when `applyIfDifferent` issues a mutation, its body holds a field
exactly when that field is in the desired mapping and its desired value
differs from (or is absent in) the current state — never a field whose
current value already equals the desired one, and never a field outside the
desired mapping. -/
theorem C7_minimal_patch (desired : List (String × String))
    (current : String → Option String) (body : List (String × String))
    (kv : String × String)
    (h : applyIfDifferent desired current = .patch body) :
    kv ∈ body ↔ kv ∈ desired ∧ current kv.1 ≠ some kv.2 := by
  have hbody : body = diffFields desired current := by
    unfold applyIfDifferent at h
    by_cases he : (diffFields desired current).isEmpty
    · rw [if_pos he] at h
      cases h
    · rw [if_neg he] at h
      cases h
      rfl
  subst hbody
  simp [diffFields, List.mem_filter]

/-- Witness for C7: `{a:1, b:2}` against current `{a:1, b:9}` patches `{b:2}`;
instantiated at the unchanged field `("a","1")`, which is not in the body. -/
theorem C7_minimal_patch_witness :
    ("a", "1") ∈ [("b", "2")] ↔
      ("a", "1") ∈ [("a", "1"), ("b", "2")] ∧
        (fun k => if k == "a" then some "1" else if k == "b" then some "9" else none)
          ("a", "1").1 ≠ some ("a", "1").2 :=
  C7_minimal_patch [("a", "1"), ("b", "2")]
    (fun k => if k == "a" then some "1" else if k == "b" then some "9" else none)
    [("b", "2")] ("a", "1") (by decide)

/-- C8: `updateUser` issues a `create` carrying the supplied role under
partition-access when the user name is absent from the existing-user listing,
issues a `modify` carrying no name and no partition-access field when the
name is present, and fails with a configuration error issuing no mutation
when the name is absent and no role is supplied. -/
theorem C8_update_user_create_vs_modify (existing : List String)
    (user password : String) (role shell : Option String) :
    (user ∉ existing → ∀ r, role = some r →
      updateUser existing user password role shell =
        .ok ⟨.create, "/tm/auth/user", ⟨some user, some password, some r, shell⟩⟩) ∧
    (user ∈ existing →
      updateUser existing user password role shell =
        .ok ⟨.modify, "/tm/auth/user/" ++ user, ⟨none, some password, none, shell⟩⟩) ∧
    (user ∉ existing → role = none →
      ∃ msg, updateUser existing user password role shell = .error msg) := by
  refine ⟨?_, ?_, ?_⟩
  · intro h r hr
    subst hr
    unfold updateUser
    rw [if_neg h]
  · intro h
    unfold updateUser
    rw [if_pos h]
  · intro h hr
    subst hr
    unfold updateUser
    rw [if_neg h]
    exact ⟨_, rfl⟩

/-- Witness for C8, covering all three branches at concrete inputs. -/
theorem C8_update_user_create_vs_modify_witness :
    updateUser ["admin"] "myUser" "myPass" (some "myRole") (some "bash") =
      .ok ⟨.create, "/tm/auth/user",
        ⟨some "myUser", some "myPass", some "myRole", some "bash"⟩⟩ ∧
    updateUser ["myUser"] "myUser" "myPass" (some "myRole") none =
      .ok ⟨.modify, "/tm/auth/user/" ++ "myUser", ⟨none, some "myPass", none, none⟩⟩ ∧
    (∃ msg, updateUser ["admin"] "myUser" "myPass" none none = .error msg) :=
  ⟨(C8_update_user_create_vs_modify ["admin"] "myUser" "myPass" (some "myRole")
      (some "bash")).1 (by decide) "myRole" rfl,
   (C8_update_user_create_vs_modify ["myUser"] "myUser" "myPass" (some "myRole")
      none).2.1 (by decide),
   (C8_update_user_create_vs_modify ["admin"] "myUser" "myPass" none
      none).2.2 (by decide) rfl⟩

/-- C9: whenever the final step of `getUnmanagedDeviceLicense` sees an
assignment whose state is not `LICENSED`, the retry options it hands to the
bounded-retry executor are exactly `{maxRetries: 40, retryIntervalMs: 5000}`. -/
theorem C9_wait_policy_40_5000 (a : Assignment) (h : a.state ≠ "LICENSED") :
    licenseWaitRetryOptions (some a) = some ⟨40, 5000⟩ := by
  simp [licenseWaitRetryOptions, h]

/-- Witness for C9 at a concrete assignment. -/
theorem C9_wait_policy_40_5000_witness :
    licenseWaitRetryOptions (some ⟨"GRANTED", "uuid-1"⟩) = some ⟨40, 5000⟩ :=
  C9_wait_policy_40_5000 ⟨"GRANTED", "uuid-1"⟩ (by decide)

/-- C10: when an offering passes the time-window check but its membership
`list` call rejects or resolves with a non-array value, the scan does not
fail the whole selection — it continues as the scan of the remaining
offerings in order. -/
theorem C10_member_failure_skips (now : Int) (members : String → ListResult Unit)
    (l : License) (rest : List License) (htv : timeValid now l)
    (h : members l.licenseState.registrationKey = .err ∨
         members l.licenseState.registrationKey = .nonArray) :
    findValidLicense now members (l :: rest) = findValidLicense now members rest := by
  rcases h with h | h
  · rw [findValidLicense, if_pos htv, h]
  · rw [findValidLicense, if_pos htv, h]

/-- Witness for C10: the first offering's membership fetch errors, the scan
continues and the remaining scan still selects the second offering. -/
theorem C10_member_failure_skips_witness :
    findValidLicense 5
      (fun k => if k == "KEY-1" then ListResult.err else ListResult.arr ([] : List Unit))
      [License.mk ⟨"KEY-1", 0, 10⟩, License.mk ⟨"KEY-2", 0, 10⟩] =
    findValidLicense 5
      (fun k => if k == "KEY-1" then ListResult.err else ListResult.arr ([] : List Unit))
      [License.mk ⟨"KEY-2", 0, 10⟩] :=
  C10_member_failure_skips 5
    (fun k => if k == "KEY-1" then ListResult.err else ListResult.arr ([] : List Unit))
    (License.mk ⟨"KEY-1", 0, 10⟩) [License.mk ⟨"KEY-2", 0, 10⟩]
    (by decide) (Or.inl (by decide))

end F5Onboard
